import Mathlib

/-
Verification development for the session state engine of the
DataverseToPowerBI metadata extraction tool
(Code/dataverse_metadata_ui.py).

Python dictionaries keyed by an entity's logical name are embedded as
association lists (List (String × α)) accessed through alGet / alSet /
alErase, matching dict.get, item assignment and del.  Python sets of
attribute logical names are embedded as duplicate-free lists built with
set_add / set_discard / set_update, matching set.add, set.discard and
set.update.  Fallible remote calls are embedded as Except values;
the orchestrator's per-key try/except is embedded as a total function.
-/

namespace DataverseToPowerBI

/-- Association-list lookup, the embedding of Python `d.get(k)`. -/
def alGet {α : Type} (l : List (String × α)) (k : String) : Option α :=
  match l with
  | [] => none
  | p :: rest => if p.1 = k then some p.2 else alGet rest k

/-- Association-list update, the embedding of Python `d[k] = v`. -/
def alSet {α : Type} (l : List (String × α)) (k : String) (v : α) : List (String × α) :=
  match l with
  | [] => [(k, v)]
  | p :: rest => if p.1 = k then (k, v) :: rest else p :: alSet rest k v

/-- Association-list deletion, the embedding of Python `del d[k]`. -/
def alErase {α : Type} (l : List (String × α)) (k : String) : List (String × α) :=
  match l with
  | [] => []
  | p :: rest => if p.1 = k then alErase rest k else p :: alErase rest k

theorem alGet_alSet_self {α : Type} (l : List (String × α)) (k : String) (v : α) :
    alGet (alSet l k v) k = some v := by
  induction l with
  | nil => simp [alGet, alSet]
  | cons p rest ih =>
    by_cases h : p.1 = k
    · simp [alGet, alSet, h]
    · simp [alGet, alSet, h, ih]

theorem alGet_alSet_ne {α : Type} (l : List (String × α)) (k j : String) (v : α)
    (h : j ≠ k) : alGet (alSet l k v) j = alGet l j := by
  induction l with
  | nil => simp [alGet, alSet, Ne.symm h]
  | cons p rest ih =>
    by_cases hp : p.1 = k
    · subst hp
      simp [alGet, alSet, Ne.symm h]
    · by_cases hj : p.1 = j
      · simp [alGet, alSet, hp, hj, h]
      · simp [alGet, alSet, hp, hj, ih]

theorem alGet_alErase_self {α : Type} (l : List (String × α)) (k : String) :
    alGet (alErase l k) k = none := by
  induction l with
  | nil => simp [alGet, alErase]
  | cons p rest ih =>
    by_cases h : p.1 = k
    · simp [alErase, h, ih]
    · simp [alGet, alErase, h, ih]

theorem alGet_alErase_ne {α : Type} (l : List (String × α)) (k j : String)
    (h : j ≠ k) : alGet (alErase l k) j = alGet l j := by
  induction l with
  | nil => simp [alErase]
  | cons p rest ih =>
    by_cases hp : p.1 = k
    · subst hp
      simp [alGet, alErase, Ne.symm h, ih]
    · by_cases hj : p.1 = j
      · simp [alGet, alErase, hp, hj, h]
      · simp [alGet, alErase, hp, hj, ih]

/-- Embedding of Python `s.add(x)` on a set represented as a duplicate-free list. -/
def set_add (s : List String) (x : String) : List String :=
  if x ∈ s then s else s ++ [x]

/-- Embedding of Python `s.discard(x)`. -/
def set_discard (s : List String) (x : String) : List String :=
  s.filter (fun y => y ≠ x)

/-- Embedding of Python `s.update(xs)`. -/
def set_update (s : List String) (xs : List String) : List String :=
  xs.foldl set_add s

theorem mem_set_add_self (s : List String) (x : String) : x ∈ set_add s x := by
  by_cases h : x ∈ s <;> simp [set_add, h]

theorem mem_set_add_of_mem {s : List String} {y : String} (x : String)
    (h : y ∈ s) : y ∈ set_add s x := by
  by_cases hx : x ∈ s <;> simp [set_add, hx, h]

theorem mem_set_discard {s : List String} {y x : String} (h : y ∈ s) (hne : y ≠ x) :
    y ∈ set_discard s x := by
  simp [set_discard, List.mem_filter, h, hne]

theorem mem_set_update_of_mem {s : List String} {y : String} (xs : List String)
    (h : y ∈ s) : y ∈ set_update s xs := by
  induction xs generalizing s with
  | nil => simpa [set_update] using h
  | cons a rest ih =>
    simp only [set_update, List.foldl_cons] at *
    exact ih (mem_set_add_of_mem a h)

theorem mem_set_update_of_mem_arg {xs : List String} {y : String} (s : List String)
    (h : y ∈ xs) : y ∈ set_update s xs := by
  induction xs generalizing s with
  | nil => cases h
  | cons a rest ih =>
    simp only [set_update, List.foldl_cons]
    rcases List.mem_cons.mp h with h1 | h2
    · subst h1
      exact mem_set_update_of_mem rest (mem_set_add_self s y)
    · exact ih (set_add s a) h2

/-- Truthiness of an optional string in a Python `if`:
`None` and the empty string are falsy. -/
def opt_str_truthy : Option String → Bool
  | some s => !s.isEmpty
  | none => false

/-- Truthiness of an optional list in a Python `if`:
`None` and the empty list are falsy. -/
def opt_list_truthy {α : Type} : Option (List α) → Bool
  | some l => !l.isEmpty
  | none => false

/-- Table metadata record built by DataverseClient.get_solution_tables; only the
fields read by the session state engine are embedded.  PrimaryIdAttribute and
PrimaryNameAttribute come from entity.get and may be absent. -/
structure TableData where
  logical_name : String
  display_name : String
  primary_id_attribute : Option String
  primary_name_attribute : Option String
  deriving DecidableEq

/-- Attribute metadata record; only the fields read by the engine are embedded. -/
structure AttrData where
  logical_name : String
  display_name : String
  attribute_type : String
  deriving DecidableEq

/-- Form summary record from DataverseClient.get_entity_forms
($select=formid,name). -/
structure FormData where
  formid : String
  name : String
  deriving DecidableEq

/-- View summary record from DataverseClient.get_entity_views
($select=savedqueryid,name,isdefault,querytype); querytype may be absent
in a raw service row, so it is optional. -/
structure ViewData where
  savedqueryid : String
  name : String
  isdefault : Bool
  querytype : Option Int
  deriving DecidableEq

/-- Per-table load-state flags, the dict written by _add_table_to_selection,
_add_tables_bulk and _restore_from_cache. -/
structure LoadState where
  attrs_loaded : Bool
  forms_loaded : Bool
  views_loaded : Bool
  attrs_loading : Bool
  forms_loading : Bool
  views_loading : Bool
  deriving DecidableEq

/-- AppSettings, the persisted preferences record (same fields as the Python
dataclass; dictionaries become association lists). -/
structure AppSettings where
  environment_url : String
  last_solution : String
  selected_tables : List String
  table_forms : List (String × String)
  table_views : List (String × String)
  table_attributes : List (String × List String)
  output_folder : String
  project_name : String
  window_geometry : String
  deriving DecidableEq

/-- The dataclass field defaults of AppSettings, the record returned by
AppSettings.load when the durable file is missing or unreadable. -/
def AppSettings.empty : AppSettings :=
  { environment_url := ""
    last_solution := ""
    selected_tables := []
    table_forms := []
    table_views := []
    table_attributes := []
    output_folder := ""
    project_name := ""
    window_geometry := "" }

/-- MetadataCache, the persisted metadata snapshot (same fields as the Python
dataclass). -/
structure MetadataCache where
  environment_url : String
  solution_name : String
  tables : List TableData
  table_data : List (String × TableData)
  table_forms : List (String × List FormData)
  table_views : List (String × List ViewData)
  table_attributes : List (String × List AttrData)
  deriving DecidableEq

/-- The dataclass field defaults of MetadataCache. -/
def MetadataCache.empty : MetadataCache :=
  { environment_url := ""
    solution_name := ""
    tables := []
    table_data := []
    table_forms := []
    table_views := []
    table_attributes := [] }

/-- MetadataCache.is_valid_for: the cache applies only when its recorded
environment URL and solution name match and its table list is non-empty. -/
def MetadataCache.is_valid_for (c : MetadataCache)
    (environment_url solution_name : String) : Bool :=
  c.environment_url == environment_url &&
  c.solution_name == solution_name &&
  decide (0 < c.tables.length)

/-- Outcome of reading a durable JSON record: the file may be missing,
opening or json.load may raise, or the parsed payload may or may not have
the field layout the dataclass constructor accepts (cls(**data) raises
TypeError on a layout mismatch). -/
inductive ReadOutcome (α : Type) where
  | missing
  | unreadable
  | parsed (record : Option α)
  deriving DecidableEq

/-- Outcome of writing a durable JSON record: the write either succeeds or
raises inside the try block (makedirs, open or json.dump). -/
inductive WriteOutcome where
  | ok
  | failed (message : String)
  deriving DecidableEq

/-- AppSettings.load: every failure path of the try/except returns the
dataclass defaults; only a file that exists, parses and matches the field
layout produces a non-default record. -/
def AppSettings.load : ReadOutcome AppSettings → AppSettings
  | .missing => AppSettings.empty
  | .unreadable => AppSettings.empty
  | .parsed none => AppSettings.empty
  | .parsed (some s) => s

/-- AppSettings.save: a write failure is only printed; the in-memory record is
returned unchanged either way.  The first component is the durable content
produced by the attempt (none when the write raised). -/
def AppSettings.save (s : AppSettings) : WriteOutcome → Option AppSettings × AppSettings
  | .ok => (some s, s)
  | .failed _ => (none, s)

/-- MetadataCache.load, same try/except shape as AppSettings.load. -/
def MetadataCache.load : ReadOutcome MetadataCache → MetadataCache
  | .missing => MetadataCache.empty
  | .unreadable => MetadataCache.empty
  | .parsed none => MetadataCache.empty
  | .parsed (some c) => c

/-- MetadataCache.save, same try/except shape as AppSettings.save. -/
def MetadataCache.save (c : MetadataCache) : WriteOutcome → Option MetadataCache × MetadataCache
  | .ok => (some c, c)
  | .failed _ => (none, c)

/-- The session state store: the per-entity dictionaries owned by
DataverseMetadataApp, together with the in-memory settings record that the
reconciliation handlers read saved selections from. -/
structure Store where
  selected_tables : List (String × TableData)
  table_forms : List (String × List FormData)
  table_views : List (String × List ViewData)
  table_attributes : List (String × List AttrData)
  selected_attributes : List (String × List String)
  selected_views : List (String × String)
  table_load_state : List (String × LoadState)
  settings : AppSettings
  deriving DecidableEq

/-- DataverseMetadataApp._get_required_attributes: the primary id and primary
name attribute of the table, each added only when present and non-empty
(Python truthiness of table_data.get). -/
def get_required_attributes (table_data : Option TableData) : List String :=
  match table_data with
  | none => []
  | some t =>
    let required : List String := []
    let required := match t.primary_id_attribute with
      | some pid => if pid.isEmpty then required else set_add required pid
      | none => required
    match t.primary_name_attribute with
      | some pn => if pn.isEmpty then required else set_add required pn
      | none => required

/-- Store-level required-attribute lookup (the method reads
self.selected_tables). -/
def Store.required_attributes (store : Store) (logical_name : String) : List String :=
  get_required_attributes (alGet store.selected_tables logical_name)

/-- The fixed default set added when no saved selection exists
(_on_attributes_loaded / _on_bulk_attributes_loaded, important_fields). -/
def important_fields : List String :=
  ["createdon", "modifiedon", "createdby", "modifiedby", "ownerid", "statecode", "statuscode"]

/-- The loop adding every fetched attribute whose lowercased logical name is an
important field. -/
def add_important_fields (sel : List String) (attributes : List AttrData) : List String :=
  attributes.foldl
    (fun s a => if a.logical_name.toLower ∈ important_fields then set_add s a.logical_name else s)
    sel

/-- Selection produced by _on_attributes_loaded (lines 1226-1239): update the
prior selection with the required attributes, then with the saved selection
when one is present and non-empty, otherwise with the important fields found
in the fetched collection. -/
def reconcile_selection_single (required prior : List String)
    (saved : Option (List String)) (attributes : List AttrData) : List String :=
  let sel := set_update prior required
  if opt_list_truthy saved then set_update sel (saved.getD [])
  else add_important_fields sel attributes

/-- Selection produced by _on_bulk_attributes_loaded (lines 991-1004): start
from a copy of the required attributes, then update with the saved selection
when present and non-empty, otherwise add the important fields found in the
fetched collection. -/
def reconcile_selection_bulk (required : List String)
    (saved : Option (List String)) (attributes : List AttrData) : List String :=
  if opt_list_truthy saved then set_update required (saved.getD [])
  else add_important_fields required attributes

/-- DataverseMetadataApp._on_attributes_loaded, the store mutations of lines
1216-1245 (tree refresh and the trailing forms/views kick-off are
presentation-layer and are outside the store).  The source indexes
table_load_state and selected_attributes directly, which is well defined
because every key of selected_tables also keys those dictionaries; the none
branches below totalise the unreachable cases by leaving the field
unchanged. -/
def on_attributes_loaded (store : Store) (logical_name : String)
    (attributes : List AttrData) : Store :=
  if (alGet store.selected_tables logical_name).isNone then store else
  let required := store.required_attributes logical_name
  let prior := (alGet store.selected_attributes logical_name).getD []
  let saved := alGet store.settings.table_attributes logical_name
  { store with
    table_attributes := alSet store.table_attributes logical_name attributes
    table_load_state :=
      match alGet store.table_load_state logical_name with
      | some st => alSet store.table_load_state logical_name
          { st with attrs_loaded := true, attrs_loading := false }
      | none => store.table_load_state
    selected_attributes := alSet store.selected_attributes logical_name
      (reconcile_selection_single required prior saved attributes) }

/-- DataverseMetadataApp._on_attributes_error: reset the loading flag when the
key still has a load-state entry; otherwise the error is only printed. -/
def on_attributes_error (store : Store) (logical_name : String) (_error : String) : Store :=
  match alGet store.table_load_state logical_name with
  | some st => { store with
      table_load_state := alSet store.table_load_state logical_name
        { st with attrs_loading := false } }
  | none => store

/-- The saved-id comparison f.get with formid equal to saved_form_id: when
no saved id exists the comparison of a string against None is false. -/
def matches_saved_form (saved : Option String) (f : FormData) : Bool :=
  match saved with
  | some sid => f.formid == sid
  | none => false

/-- Form chosen by _on_forms_views_loaded / _on_bulk_forms_views_loaded: the
first form whose id equals the saved form id, else the first form; none only
when the fetched collection is empty. -/
def choose_form (saved : Option String) (forms : List FormData) : Option FormData :=
  match forms with
  | [] => none
  | f :: fs => some (((f :: fs).find? (matches_saved_form saved)).getD f)

/-- The form name displayed for the chosen form, with the no-forms sentinel
used when the fetched collection is empty. -/
def selected_form_name (saved : Option String) (forms : List FormData) : String :=
  match choose_form saved forms with
  | none => "(no forms)"
  | some f => f.name

/-- The saved-id comparison for views. -/
def matches_saved_view (saved : Option String) (v : ViewData) : Bool :=
  match saved with
  | some sid => v.savedqueryid == sid
  | none => false

/-- View chosen by _on_forms_views_loaded / _on_bulk_forms_views_loaded: the
first view whose id equals the saved view id, else the first view flagged as
default, else the first view; none only when the fetched collection is
empty. -/
def choose_view (saved : Option String) (views : List ViewData) : Option ViewData :=
  match views with
  | [] => none
  | v :: vs =>
    some ((((v :: vs).find? (matches_saved_view saved)).getD
      (((v :: vs).find? (fun w => w.isdefault)).getD v)))

/-- View id recorded by _restore_from_cache (lines 632-638): a truthy saved
view id is used unconditionally; only when there is none does the code fall
back to the default-flagged view and then the first cached view. -/
def restore_chosen_view_id (saved : Option String)
    (cached_views : List ViewData) : Option String :=
  if opt_str_truthy saved then saved
  else
    match cached_views with
    | [] => none
    | v :: vs =>
      some ((((v :: vs).find? (fun w => w.isdefault)).getD v).savedqueryid)

/-- DataverseMetadataApp._on_forms_views_loaded, the store mutations of lines
1298-1326 (tree and display updates are presentation-layer). -/
def on_forms_views_loaded (store : Store) (logical_name : String)
    (forms : List FormData) (views : List ViewData) : Store :=
  if (alGet store.selected_tables logical_name).isNone then store else
  let saved_view_id := alGet store.settings.table_views logical_name
  let s1 := { store with
    table_forms := alSet store.table_forms logical_name forms
    table_views := alSet store.table_views logical_name views
    table_load_state :=
      match alGet store.table_load_state logical_name with
      | some st => alSet store.table_load_state logical_name
          { st with forms_loaded := true, views_loaded := true,
                    forms_loading := false, views_loading := false }
      | none => store.table_load_state }
  match choose_view saved_view_id views with
  | some w => { s1 with selected_views := alSet s1.selected_views logical_name w.savedqueryid }
  | none => s1

/-- DataverseMetadataApp._on_forms_views_error: reset the loading flags when
the key still has a load-state entry; the error marker written into the tree
row is presentation-layer. -/
def on_forms_views_error (store : Store) (logical_name : String) (_error : String) : Store :=
  match alGet store.table_load_state logical_name with
  | some st => { store with
      table_load_state := alSet store.table_load_state logical_name
        { st with forms_loading := false, views_loading := false } }
  | none => store

/-- One iteration of the _on_bulk_attributes_loaded result loop (lines
981-1010): keys no longer selected are skipped. -/
def bulk_attributes_step (store : Store) (entry : String × List AttrData) : Store :=
  let logical_name := entry.1
  let attributes := entry.2
  if (alGet store.selected_tables logical_name).isNone then store else
  let required := store.required_attributes logical_name
  let saved := alGet store.settings.table_attributes logical_name
  { store with
    table_attributes := alSet store.table_attributes logical_name attributes
    table_load_state :=
      match alGet store.table_load_state logical_name with
      | some st => alSet store.table_load_state logical_name
          { st with attrs_loaded := true, attrs_loading := false }
      | none => store.table_load_state
    selected_attributes := alSet store.selected_attributes logical_name
      (reconcile_selection_bulk required saved attributes) }

/-- DataverseMetadataApp._on_bulk_attributes_loaded, the per-key result loop
(lines 979-1017); the trailing forms/views kick-off and autosave fall outside
the cited loop. -/
def on_bulk_attributes_loaded (store : Store)
    (results : List (String × List AttrData)) : Store :=
  results.foldl bulk_attributes_step store

/-- One iteration of the _on_bulk_forms_views_loaded result loop (lines
1074-1108). -/
def bulk_forms_views_step (store : Store)
    (entry : String × (List FormData × List ViewData)) : Store :=
  on_forms_views_loaded store entry.1 entry.2.1 entry.2.2

/-- DataverseMetadataApp._on_bulk_forms_views_loaded, the per-key result loop;
each iteration performs the same store mutations as the single-table
handler. -/
def on_bulk_forms_views_loaded (store : Store)
    (results : List (String × (List FormData × List ViewData))) : Store :=
  results.foldl bulk_forms_views_step store

/-- The per-key try/except of the bulk attribute loader (lines 966-973): a
task that raises is recorded as an empty attribute list for its own key. -/
def attrs_result_of : Except String (List AttrData) → List AttrData
  | .ok v => v
  | .error _ => []

/-- do_parallel_load of _add_tables_bulk (lines 958-975): every task outcome
is collected into the per-key result map; no exception escapes the batch. -/
def do_parallel_load (tasks : List (String × Except String (List AttrData))) :
    List (String × List AttrData) :=
  tasks.map (fun t => (t.1, attrs_result_of t.2))

/-- DataverseMetadataApp._on_remove_tables for one key (lines 1361-1376): the
key is deleted from every per-entity dictionary; tree manipulation is
presentation-layer. -/
def remove_entity (store : Store) (logical_name : String) : Store :=
  { store with
    selected_tables := alErase store.selected_tables logical_name
    table_forms := alErase store.table_forms logical_name
    table_views := alErase store.table_views logical_name
    table_attributes := alErase store.table_attributes logical_name
    selected_attributes := alErase store.selected_attributes logical_name
    selected_views := alErase store.selected_views logical_name
    table_load_state := alErase store.table_load_state logical_name }

/-- DataverseMetadataApp._load_attributes_for_table (lines 1198-1205): the
request is dropped when the key is unknown or already loading; otherwise the
loading flag is set and a fetch task starts (the returned Bool). -/
def load_attributes_for_table (store : Store) (logical_name : String) : Store × Bool :=
  match alGet store.table_load_state logical_name with
  | none => (store, false)
  | some st =>
    if st.attrs_loading then (store, false)
    else
      ({ store with
          table_load_state := alSet store.table_load_state logical_name
            { st with attrs_loading := true } }, true)

/-- DataverseMetadataApp._load_forms_views_for_table (lines 1269-1280): the
request is dropped when the key is unknown, already loading, or already fully
loaded; otherwise the loading flags are set and a fetch task starts. -/
def load_forms_views_for_table (store : Store) (logical_name : String) : Store × Bool :=
  match alGet store.table_load_state logical_name with
  | none => (store, false)
  | some st =>
    if st.forms_loading || st.views_loading then (store, false)
    else if st.forms_loaded && st.views_loaded then (store, false)
    else
      ({ store with
          table_load_state := alSet store.table_load_state logical_name
            { st with forms_loading := true, views_loading := true } }, true)

/-- DataverseClient.get_entity_views (lines 229-244): the rows returned by the
service are filtered to public views before being returned. -/
def get_entity_views (raw_views : List ViewData) : List ViewData :=
  raw_views.filter (fun v => v.querytype == some 0)

/-- The attribute-selection operations a user can perform once a table's
attributes are displayed: a single click toggle (_on_attr_click), a
multi-selection toggle (_on_attr_toggle), select-all over the visible rows
(_on_select_all_attrs) and deselect-all (_on_deselect_all_attrs). -/
inductive AttrOp where
  | click (attr : String)
  | toggleMulti (attrs : List String)
  | selectAll (visible : List String)
  | deselectAll
  deriving DecidableEq

/-- The toggle shared by _on_attr_click and the _on_attr_toggle loop body: a
required attribute is left untouched, any other attribute is removed when
present and added when absent. -/
def click_toggle (required sel : List String) (attr : String) : List String :=
  if attr ∈ required then sel
  else if attr ∈ sel then set_discard sel attr
  else set_add sel attr

/-- Effect of one attribute-selection operation on a table's selection set. -/
def apply_attr_op (required sel : List String) : AttrOp → List String
  | .click attr => click_toggle required sel attr
  | .toggleMulti attrs => attrs.foldl (fun s a => click_toggle required s a) sel
  | .selectAll visible => visible.foldl set_add sel
  | .deselectAll => required

/-- Effect of a sequence of attribute-selection operations. -/
def apply_attr_ops (required sel : List String) (ops : List AttrOp) : List String :=
  ops.foldl (apply_attr_op required) sel

/-- Modelled from the spec: the three-state per-resource load machine
(NotLoaded, Loading, Loaded or Failed) that section 3 describes; the code
keeps boolean flags instead, and this bridge reads the machine state for the
attributes resource off those flags.  No flag of the code encodes Failed for
attributes, so the bridge can never produce it. -/
inductive SpecLoadState where
  | notLoaded
  | loading
  | loaded
  | failed
  deriving DecidableEq

/-- The attributes-resource spec state of a flag record. -/
def attrs_spec_state (st : LoadState) : SpecLoadState :=
  if st.attrs_loading then .loading
  else if st.attrs_loaded then .loaded
  else .notLoaded

/-- Concrete account table fixture. -/
def ex_table_account : TableData :=
  { logical_name := "account", display_name := "Account",
    primary_id_attribute := some "accountid", primary_name_attribute := some "name" }

/-- Concrete contact table fixture. -/
def ex_table_contact : TableData :=
  { logical_name := "contact", display_name := "Contact",
    primary_id_attribute := some "contactid", primary_name_attribute := some "fullname" }

/-- Load-state flags right after _add_tables_bulk registers a table. -/
def ex_loading_state : LoadState :=
  { attrs_loaded := false, forms_loaded := false, views_loaded := false,
    attrs_loading := true, forms_loading := false, views_loading := false }

/-- Store with two tables whose bulk attribute fetch is in flight. -/
def ex_store_two : Store :=
  { selected_tables := [("account", ex_table_account), ("contact", ex_table_contact)]
    table_forms := []
    table_views := []
    table_attributes := []
    selected_attributes := [("account", []), ("contact", [])]
    selected_views := []
    table_load_state := [("account", ex_loading_state), ("contact", ex_loading_state)]
    settings := AppSettings.empty }

/-- Load-state flags of a table whose three resources are all loaded. -/
def ex_all_loaded_state : LoadState :=
  { attrs_loaded := true, forms_loaded := true, views_loaded := true,
    attrs_loading := false, forms_loading := false, views_loading := false }

/-- Concrete contact-id attribute fixture. -/
def ex_attr_contactid : AttrData :=
  { logical_name := "contactid", display_name := "Contact Id",
    attribute_type := "Uniqueidentifier" }

/-- Batch fixture: the account task throws, the contact task succeeds. -/
def ex_tasks : List (String × Except String (List AttrData)) :=
  [("account", .error "TransportError"), ("contact", .ok [ex_attr_contactid])]

/-- Store with one fully loaded table. -/
def ex_store_loaded : Store :=
  { selected_tables := [("account", ex_table_account)]
    table_forms := [("account", [{ formid := "F1", name := "Main" }])]
    table_views := [("account", [{ savedqueryid := "V1", name := "All", isdefault := true, querytype := some 0 }])]
    table_attributes := []
    selected_attributes := [("account", ["accountid", "name"])]
    selected_views := [("account", "V1")]
    table_load_state := [("account", ex_all_loaded_state)]
    settings := AppSettings.empty }

theorem mem_add_important_of_mem {sel : List String} {y : String}
    (attributes : List AttrData) (h : y ∈ sel) :
    y ∈ add_important_fields sel attributes := by
  induction attributes generalizing sel with
  | nil => simpa [add_important_fields] using h
  | cons a rest ih =>
    simp only [add_important_fields, List.foldl_cons] at *
    by_cases ha : a.logical_name.toLower ∈ important_fields
    · simpa [ha] using ih (mem_set_add_of_mem a.logical_name h)
    · simpa [ha] using ih h

theorem mem_reconcile_selection_single {required : List String} {k : String}
    (prior : List String) (saved : Option (List String)) (attributes : List AttrData)
    (h : k ∈ required) :
    k ∈ reconcile_selection_single required prior saved attributes := by
  have hbase : k ∈ set_update prior required := mem_set_update_of_mem_arg prior h
  by_cases hs : opt_list_truthy saved = true
  · simpa [reconcile_selection_single, hs] using
      mem_set_update_of_mem (saved.getD []) hbase
  · simpa [reconcile_selection_single, hs] using
      mem_add_important_of_mem attributes hbase

theorem mem_reconcile_selection_bulk {required : List String} {k : String}
    (saved : Option (List String)) (attributes : List AttrData)
    (h : k ∈ required) :
    k ∈ reconcile_selection_bulk required saved attributes := by
  by_cases hs : opt_list_truthy saved = true
  · simpa [reconcile_selection_bulk, hs] using
      mem_set_update_of_mem (saved.getD []) h
  · simpa [reconcile_selection_bulk, hs] using
      mem_add_important_of_mem attributes h

theorem click_toggle_mem_required {required sel : List String} {k : String}
    (a : String) (hk : k ∈ required) (hsel : k ∈ sel) :
    k ∈ click_toggle required sel a := by
  by_cases ha : a ∈ required
  · simpa [click_toggle, ha] using hsel
  · by_cases hin : a ∈ sel
    · have hne : k ≠ a := fun he => ha (he ▸ hk)
      simpa [click_toggle, ha, hin] using mem_set_discard hsel hne
    · simpa [click_toggle, ha, hin] using mem_set_add_of_mem a hsel

theorem click_toggle_required_noop {required sel : List String} {k : String}
    (hk : k ∈ required) : click_toggle required sel k = sel := by
  simp [click_toggle, hk]

theorem apply_attr_op_mem_required {required sel : List String} {k : String}
    (op : AttrOp) (hk : k ∈ required) (hsel : k ∈ sel) :
    k ∈ apply_attr_op required sel op := by
  cases op with
  | click a => exact click_toggle_mem_required a hk hsel
  | toggleMulti attrs =>
    simp only [apply_attr_op]
    induction attrs generalizing sel with
    | nil => simpa using hsel
    | cons a rest ih =>
      simpa using ih (click_toggle_mem_required a hk hsel)
  | selectAll visible =>
    exact mem_set_update_of_mem visible hsel
  | deselectAll => simpa [apply_attr_op] using hk

theorem apply_attr_ops_mem_required {required sel : List String} {k : String}
    (ops : List AttrOp) (hk : k ∈ required) (hsel : k ∈ sel) :
    k ∈ apply_attr_ops required sel ops := by
  induction ops generalizing sel with
  | nil => simpa [apply_attr_ops] using hsel
  | cons op rest ih =>
    simp only [apply_attr_ops, List.foldl_cons] at *
    exact ih (apply_attr_op_mem_required op hk hsel)

/-- C1: once a table's attribute fetch result has been reconciled into its
selection (single or bulk path), any sequence of toggle operations (single
click, multi-select toggle, select-all, deselect-all) keeps every required
attribute — the table's primary id and primary name attribute — in the
selection, and a single-click toggle naming a required attribute leaves the
selection unchanged. -/
theorem required_attributes_invariant (td : TableData) (required prior : List String)
    (saved : Option (List String)) (attributes : List AttrData) (ops : List AttrOp)
    (hreq : required = get_required_attributes (some td)) :
    (∀ k ∈ required,
      k ∈ apply_attr_ops required
        (reconcile_selection_single required prior saved attributes) ops) ∧
    (∀ k ∈ required,
      k ∈ apply_attr_ops required
        (reconcile_selection_bulk required saved attributes) ops) ∧
    (∀ (sel : List String) (k : String), k ∈ required →
      apply_attr_op required sel (.click k) = sel) := by
  subst hreq
  refine ⟨fun k hk => ?_, fun k hk => ?_, fun sel k hk => ?_⟩
  · exact apply_attr_ops_mem_required ops hk
      (mem_reconcile_selection_single prior saved attributes hk)
  · exact apply_attr_ops_mem_required ops hk
      (mem_reconcile_selection_bulk saved attributes hk)
  · exact click_toggle_required_noop hk

theorem required_attributes_invariant_witness :
    "accountid" ∈ apply_attr_ops ["accountid", "name"]
      (reconcile_selection_single ["accountid", "name"] [] none
        [{ logical_name := "accountid", display_name := "Account Id", attribute_type := "Uniqueidentifier" },
         { logical_name := "name", display_name := "Account Name", attribute_type := "String" }])
      [.deselectAll, .click "accountid", .selectAll ["emailaddress1"], .toggleMulti ["name"]] :=
  (required_attributes_invariant ex_table_account ["accountid", "name"] [] none
      [{ logical_name := "accountid", display_name := "Account Id", attribute_type := "Uniqueidentifier" },
       { logical_name := "name", display_name := "Account Name", attribute_type := "String" }]
      [.deselectAll, .click "accountid", .selectAll ["emailaddress1"], .toggleMulti ["name"]]
      (by decide)).1 "accountid" (by decide)

/-- C2 counterexample: with saved selection accountid, custom_field and a
fetched collection lacking custom_field, the reconciled selection still
contains custom_field, so the saved key is added although it does not occur
in the fetched attribute collection and the resulting selection is not only
the required keys. -/
theorem stale_saved_key_counterexample :
    ("custom_field" ∈ reconcile_selection_bulk ["accountid", "name"]
        (some ["accountid", "custom_field"])
        [{ logical_name := "accountid", display_name := "Account Id", attribute_type := "Uniqueidentifier" },
         { logical_name := "name", display_name := "Account Name", attribute_type := "String" }]) ∧
    ("custom_field" ∉
      ([{ logical_name := "accountid", display_name := "Account Id", attribute_type := "Uniqueidentifier" },
        { logical_name := "name", display_name := "Account Name", attribute_type := "String" }] :
          List AttrData).map AttrData.logical_name) ∧
    ("custom_field" ∈ reconcile_selection_single ["accountid", "name"] []
        (some ["accountid", "custom_field"])
        [{ logical_name := "accountid", display_name := "Account Id", attribute_type := "Uniqueidentifier" },
         { logical_name := "name", display_name := "Account Name", attribute_type := "String" }]) := by
  decide

/-- C2 (amended): a non-empty saved attribute selection is unioned into the
selection unconditionally — no membership test against the freshly fetched
attribute collection is performed, so stale saved keys are retained rather
than dropped. -/
theorem saved_selection_union (required prior saved_keys : List String)
    (attributes : List AttrData) (hne : saved_keys ≠ []) :
    reconcile_selection_bulk required (some saved_keys) attributes
      = set_update required saved_keys ∧
    reconcile_selection_single required prior (some saved_keys) attributes
      = set_update (set_update prior required) saved_keys ∧
    (∀ x ∈ saved_keys, x ∈ reconcile_selection_bulk required (some saved_keys) attributes) ∧
    (∀ x ∈ saved_keys, x ∈ reconcile_selection_single required prior (some saved_keys) attributes) := by
  have ht : opt_list_truthy (some saved_keys) = true := by
    simp [opt_list_truthy, List.isEmpty_iff, hne]
  refine ⟨by simp [reconcile_selection_bulk, ht],
          by simp [reconcile_selection_single, ht],
          fun x hx => ?_, fun x hx => ?_⟩
  · simpa [reconcile_selection_bulk, ht] using
      mem_set_update_of_mem_arg required hx
  · simpa [reconcile_selection_single, ht] using
      mem_set_update_of_mem_arg (set_update prior required) hx

theorem saved_selection_union_witness :
    "custom_field" ∈ reconcile_selection_bulk ["accountid", "name"]
      (some ["accountid", "custom_field"]) [] :=
  (saved_selection_union ["accountid", "name"] [] ["accountid", "custom_field"] []
      (by decide)).2.2.1 "custom_field" (by decide)

/-- C5: cache validity holds exactly when the stored environment URL and
solution name match the requested pair and the stored table list is
non-empty; in particular the empty cache is valid for no pair. -/
theorem cache_validity (c : MetadataCache) (u s : String) :
    (c.is_valid_for u s = true ↔
      (c.environment_url = u ∧ c.solution_name = s ∧ c.tables ≠ [])) ∧
    (MetadataCache.empty.is_valid_for u s = false) := by
  constructor
  · simp [MetadataCache.is_valid_for, ← List.length_pos_iff_ne_nil, and_assoc]
  · simp [MetadataCache.is_valid_for, MetadataCache.empty]

theorem cache_validity_witness :
    ({ environment_url := "https://env.crm.dynamics.com", solution_name := "sol",
       tables := [ex_table_account], table_data := [], table_forms := [],
       table_views := [], table_attributes := [] } : MetadataCache).is_valid_for
      "https://env.crm.dynamics.com" "sol" = true :=
  (cache_validity _ "https://env.crm.dynamics.com" "sol").1.mpr
    ⟨rfl, rfl, by decide⟩

/-- C7: the chosen form is the first fetched form whose id equals the saved
form id when such a form exists, otherwise the first fetched form; an empty
fetched collection produces the no-forms sentinel rather than an error. -/
theorem form_choice (saved : Option String) (forms : List FormData) :
    (∀ f, forms.find? (matches_saved_form saved) = some f →
      choose_form saved forms = some f) ∧
    (forms.find? (matches_saved_form saved) = none →
      ∀ h : forms ≠ [], choose_form saved forms = some (forms.head h)) ∧
    (∀ f sid, choose_form saved forms = some f → saved = some sid →
      (∃ g ∈ forms, g.formid = sid) → f.formid = sid) ∧
    (choose_form saved [] = none ∧ selected_form_name saved [] = "(no forms)") := by
  refine ⟨?_, ?_, ?_, by simp [choose_form, selected_form_name]⟩
  · intro f hf
    cases forms with
    | nil => simp [List.find?] at hf
    | cons g gs => simp [choose_form, hf]
  · intro hnone h
    cases forms with
    | nil => exact absurd rfl h
    | cons g gs => simp [choose_form, hnone]
  · intro f sid hchoose hsaved hex
    subst hsaved
    have hsome : (forms.find? (matches_saved_form (some sid))).isSome := by
      rw [List.find?_isSome]
      rcases hex with ⟨g, hg, hid⟩
      exact ⟨g, hg, by simp [matches_saved_form, hid]⟩
    rcases Option.isSome_iff_exists.mp hsome with ⟨f', hf'⟩
    have : choose_form (some sid) forms = some f' := by
      cases forms with
      | nil => simp [List.find?] at hf'
      | cons g gs => simp [choose_form, hf']
    rw [this] at hchoose
    cases hchoose
    have := List.find?_some hf'
    simpa [matches_saved_form] using this

theorem form_choice_witness :
    choose_form (some "F1") [{ formid := "F2", name := "Form two" },
      { formid := "F3", name := "Form three" }] = some { formid := "F2", name := "Form two" } :=
  (form_choice (some "F1") [{ formid := "F2", name := "Form two" },
      { formid := "F3", name := "Form three" }]).2.1 (by decide) (by decide)

/-- C8: the persistence loaders return the dataclass defaults whenever the
durable file is missing, unreadable or of the wrong shape, and the savers
return the in-memory record unchanged whether or not the write succeeded;
both are total, so no failure escapes to the caller. -/
theorem persistence_best_effort :
    (AppSettings.load .missing = AppSettings.empty) ∧
    (AppSettings.load .unreadable = AppSettings.empty) ∧
    (AppSettings.load (.parsed none) = AppSettings.empty) ∧
    (∀ s : AppSettings, AppSettings.load (.parsed (some s)) = s) ∧
    (∀ (s : AppSettings) (w : WriteOutcome), (AppSettings.save s w).2 = s) ∧
    (MetadataCache.load .missing = MetadataCache.empty) ∧
    (MetadataCache.load .unreadable = MetadataCache.empty) ∧
    (MetadataCache.load (.parsed none) = MetadataCache.empty) ∧
    (∀ c : MetadataCache, MetadataCache.load (.parsed (some c)) = c) ∧
    (∀ (c : MetadataCache) (w : WriteOutcome), (MetadataCache.save c w).2 = c) := by
  refine ⟨rfl, rfl, rfl, fun s => rfl, fun s w => ?_, rfl, rfl, rfl, fun c => rfl,
    fun c w => ?_⟩ <;> cases w <;> rfl

theorem choose_view_mem {saved : Option String} {views : List ViewData} {w : ViewData}
    (h : choose_view saved views = some w) : w ∈ views := by
  cases views with
  | nil => simp [choose_view] at h
  | cons v vs =>
    simp only [choose_view, Option.some_inj] at h
    cases hf : (v :: vs).find? (matches_saved_view saved) with
    | some f =>
      rw [hf] at h
      simp only [Option.getD_some] at h
      exact h ▸ List.mem_of_find?_eq_some hf
    | none =>
      rw [hf] at h
      simp only [Option.getD_none] at h
      cases hd : (v :: vs).find? (fun x => x.isdefault) with
      | some d =>
        rw [hd] at h
        simp only [Option.getD_some] at h
        exact h ▸ List.mem_of_find?_eq_some hd
      | none =>
        rw [hd] at h
        simp only [Option.getD_none] at h
        exact h ▸ List.mem_cons_self v vs

/-- C10: every view returned by the client's view-listing operation has
querytype zero, and consequently the reconciler's view choice over such a
listing can only ever pick a view with querytype zero. -/
theorem views_filtered_to_public (raw_views : List ViewData) :
    (∀ v ∈ get_entity_views raw_views, v.querytype = some 0) ∧
    (∀ (saved : Option String) (w : ViewData),
      choose_view saved (get_entity_views raw_views) = some w →
      w.querytype = some 0) := by
  have hall : ∀ v ∈ get_entity_views raw_views, v.querytype = some 0 := by
    intro v hv
    have := (List.mem_filter.mp hv).2
    simpa using this
  exact ⟨hall, fun saved w hw => hall w (choose_view_mem hw)⟩

theorem views_filtered_to_public_witness :
    ({ savedqueryid := "V1", name := "Active rows", isdefault := false, querytype := some 0 } :
        ViewData).querytype = some 0 :=
  (views_filtered_to_public
      [{ savedqueryid := "V1", name := "Active rows", isdefault := false, querytype := some 0 },
       { savedqueryid := "V2", name := "Admin view", isdefault := true, querytype := some 1 }]).1
    { savedqueryid := "V1", name := "Active rows", isdefault := false, querytype := some 0 }
    (by decide)

/-- C6 counterexample: restoring from cache with saved view id V9 keeps V9
even though no cached view has that id and a default-flagged view V1 exists,
while the fetch-applied rule at the same input chooses V1 — so the restore
path does not follow the claimed rule. -/
theorem restore_view_counterexample :
    (restore_chosen_view_id (some "V9")
      [{ savedqueryid := "V1", name := "All", isdefault := true, querytype := some 0 }]
      = some "V9") ∧
    ("V9" ∉ ([{ savedqueryid := "V1", name := "All", isdefault := true, querytype := some 0 }] :
        List ViewData).map ViewData.savedqueryid) ∧
    ((choose_view (some "V9")
        [{ savedqueryid := "V1", name := "All", isdefault := true, querytype := some 0 }]).map
      ViewData.savedqueryid = some "V1") := by
  decide

/-- C6 (amended): when a view fetch result is applied with a non-empty
collection, the chosen view is the saved one when present, else the first
default-flagged view, else the first view; the cache-restore path instead
uses a non-empty saved view id unconditionally — without checking it against
the cached collection — and only falls back to the default-then-first rule
when no saved id exists. -/
theorem view_choice (saved : Option String) (views : List ViewData) :
    (∀ v, views.find? (matches_saved_view saved) = some v →
      choose_view saved views = some v) ∧
    (views.find? (matches_saved_view saved) = none →
      ∀ d, views.find? (fun w => w.isdefault) = some d →
        choose_view saved views = some d) ∧
    (views.find? (matches_saved_view saved) = none →
      views.find? (fun w => w.isdefault) = none →
      ∀ h : views ≠ [], choose_view saved views = some (views.head h)) ∧
    (∀ v sid, choose_view saved views = some v → saved = some sid →
      (∃ g ∈ views, g.savedqueryid = sid) → v.savedqueryid = sid) ∧
    (opt_str_truthy saved = true → restore_chosen_view_id saved views = saved) ∧
    (opt_str_truthy saved = false →
      restore_chosen_view_id saved views
        = (choose_view none views).map (fun w => w.savedqueryid)) := by
  refine ⟨?_, ?_, ?_, ?_, ?_, ?_⟩
  · intro v hv
    cases views with
    | nil => simp [List.find?] at hv
    | cons g gs => simp [choose_view, hv]
  · intro hnone d hd
    cases views with
    | nil => simp [List.find?] at hd
    | cons g gs => simp [choose_view, hnone, hd]
  · intro hnone hnd h
    cases views with
    | nil => exact absurd rfl h
    | cons g gs => simp [choose_view, hnone, hnd]
  · intro v sid hchoose hsaved hex
    subst hsaved
    have hsome : (views.find? (matches_saved_view (some sid))).isSome := by
      rw [List.find?_isSome]
      rcases hex with ⟨g, hg, hid⟩
      exact ⟨g, hg, by simp [matches_saved_view, hid]⟩
    rcases Option.isSome_iff_exists.mp hsome with ⟨v', hv'⟩
    have hc : choose_view (some sid) views = some v' := by
      cases views with
      | nil => simp [List.find?] at hv'
      | cons g gs => simp [choose_view, hv']
    rw [hc] at hchoose
    cases hchoose
    have := List.find?_some hv'
    simpa [matches_saved_view] using this
  · intro ht
    simp [restore_chosen_view_id, ht]
  · intro hf
    have hmn : views.find? (matches_saved_view none) = none := by
      rw [List.find?_eq_none]
      intro x _
      simp [matches_saved_view]
    cases views with
    | nil => simp [restore_chosen_view_id, hf, choose_view]
    | cons g gs =>
      simp [restore_chosen_view_id, hf, choose_view, hmn]

theorem view_choice_witness :
    choose_view (some "V2")
      [{ savedqueryid := "V1", name := "All", isdefault := true, querytype := some 0 },
       { savedqueryid := "V2", name := "Mine", isdefault := false, querytype := some 0 }]
      = some { savedqueryid := "V2", name := "Mine", isdefault := false, querytype := some 0 } :=
  (view_choice (some "V2")
      [{ savedqueryid := "V1", name := "All", isdefault := true, querytype := some 0 },
       { savedqueryid := "V2", name := "Mine", isdefault := false, querytype := some 0 }]).1
    { savedqueryid := "V2", name := "Mine", isdefault := false, querytype := some 0 }
    (by decide)

/-- C9 counterexample: for the forms-and-views resource, requesting a load on
a key that is already fully loaded (and not loading) is a no-op — no fetch
task starts and the store is unchanged — so an already-loaded key is not
refreshed for this resource kind. -/
theorem forms_views_refresh_counterexample :
    load_forms_views_for_table ex_store_loaded "account" = (ex_store_loaded, false) ∧
    alGet ex_store_loaded.table_load_state "account" = some ex_all_loaded_state ∧
    ex_all_loaded_state.forms_loaded = true ∧
    ex_all_loaded_state.views_loaded = true ∧
    ex_all_loaded_state.forms_loading = false ∧
    ex_all_loaded_state.views_loading = false := by
  decide

/-- C9 (amended): requesting a load while the key is already Loading is a
no-op for both resource kinds; a key already Loaded is permitted to refresh
for the attributes kind — the request starts a new fetch and the completion
replaces only that key's snapshot — but for the forms-and-views kind an
already fully loaded key is also a no-op. -/
theorem load_reentrancy (store : Store) (k : String) (st : LoadState)
    (hst : alGet store.table_load_state k = some st) :
    (st.attrs_loading = true → load_attributes_for_table store k = (store, false)) ∧
    ((st.forms_loading || st.views_loading) = true →
      load_forms_views_for_table store k = (store, false)) ∧
    (st.attrs_loading = false → (load_attributes_for_table store k).2 = true) ∧
    (st.forms_loading = false → st.views_loading = false →
      st.forms_loaded = true → st.views_loaded = true →
      load_forms_views_for_table store k = (store, false)) ∧
    (∀ (attributes : List AttrData) (j : String), j ≠ k →
      alGet (on_attributes_loaded store k attributes).table_attributes j
        = alGet store.table_attributes j ∧
      alGet (on_attributes_loaded store k attributes).selected_attributes j
        = alGet store.selected_attributes j) := by
  refine ⟨?_, ?_, ?_, ?_, ?_⟩
  · intro h
    simp [load_attributes_for_table, hst, h]
  · intro h
    simp [load_forms_views_for_table, hst, h]
  · intro h
    simp [load_attributes_for_table, hst, h]
  · intro h1 h2 h3 h4
    simp [load_forms_views_for_table, hst, h1, h2, h3, h4]
  · intro attributes j hj
    by_cases hg : (alGet store.selected_tables k).isNone = true
    · simp [on_attributes_loaded, hg]
    · have hg' : (alGet store.selected_tables k).isNone = false := by
        simp only [Bool.not_eq_true] at hg
        exact hg
      constructor
      · simp only [on_attributes_loaded, hg', Bool.false_eq_true, if_false]
        exact alGet_alSet_ne _ _ _ _ hj
      · simp only [on_attributes_loaded, hg', Bool.false_eq_true, if_false]
        exact alGet_alSet_ne _ _ _ _ hj

theorem load_reentrancy_witness :
    load_attributes_for_table ex_store_two "account" = (ex_store_two, false) :=
  (load_reentrancy ex_store_two "account" ex_loading_state (by decide)).1 (by decide)

/-- C4: removing an entity deletes its entry from every per-entity dictionary
of the store, and every late fetch completion for the removed key — single or
bulk, success or error — leaves the store unchanged. -/
theorem remove_entity_discards (store : Store) (k : String) (attributes : List AttrData)
    (forms : List FormData) (views : List ViewData) (e : String) :
    (alGet (remove_entity store k).selected_tables k = none ∧
     alGet (remove_entity store k).table_forms k = none ∧
     alGet (remove_entity store k).table_views k = none ∧
     alGet (remove_entity store k).table_attributes k = none ∧
     alGet (remove_entity store k).selected_attributes k = none ∧
     alGet (remove_entity store k).selected_views k = none ∧
     alGet (remove_entity store k).table_load_state k = none) ∧
    on_attributes_loaded (remove_entity store k) k attributes = remove_entity store k ∧
    on_attributes_error (remove_entity store k) k e = remove_entity store k ∧
    on_forms_views_loaded (remove_entity store k) k forms views = remove_entity store k ∧
    on_forms_views_error (remove_entity store k) k e = remove_entity store k ∧
    on_bulk_attributes_loaded (remove_entity store k) [(k, attributes)] = remove_entity store k ∧
    on_bulk_forms_views_loaded (remove_entity store k) [(k, (forms, views))]
      = remove_entity store k := by
  have h1 : alGet (remove_entity store k).selected_tables k = none :=
    alGet_alErase_self store.selected_tables k
  have h7 : alGet (remove_entity store k).table_load_state k = none :=
    alGet_alErase_self store.table_load_state k
  refine ⟨⟨h1, alGet_alErase_self store.table_forms k,
      alGet_alErase_self store.table_views k,
      alGet_alErase_self store.table_attributes k,
      alGet_alErase_self store.selected_attributes k,
      alGet_alErase_self store.selected_views k, h7⟩, ?_, ?_, ?_, ?_, ?_, ?_⟩
  · simp [on_attributes_loaded, h1]
  · simp [on_attributes_error, h7]
  · simp [on_forms_views_loaded, h1]
  · simp [on_forms_views_error, h7]
  · simp [on_bulk_attributes_loaded, bulk_attributes_step, h1]
  · simp [on_bulk_forms_views_loaded, bulk_forms_views_step, on_forms_views_loaded, h1]

theorem bulk_step_selected_tables (store : Store) (entry : String × List AttrData) :
    (bulk_attributes_step store entry).selected_tables = store.selected_tables := by
  by_cases h : (alGet store.selected_tables entry.1).isNone = true
  · simp [bulk_attributes_step, h]
  · have h' : (alGet store.selected_tables entry.1).isNone = false := by
      simp only [Bool.not_eq_true] at h
      exact h
    simp [bulk_attributes_step, h']

theorem bulk_step_settings (store : Store) (entry : String × List AttrData) :
    (bulk_attributes_step store entry).settings = store.settings := by
  by_cases h : (alGet store.selected_tables entry.1).isNone = true
  · simp [bulk_attributes_step, h]
  · have h' : (alGet store.selected_tables entry.1).isNone = false := by
      simp only [Bool.not_eq_true] at h
      exact h
    simp [bulk_attributes_step, h']

theorem bulk_step_frame (store : Store) (entry : String × List AttrData) (j : String)
    (hj : j ≠ entry.1) :
    alGet (bulk_attributes_step store entry).table_attributes j
      = alGet store.table_attributes j ∧
    alGet (bulk_attributes_step store entry).table_load_state j
      = alGet store.table_load_state j ∧
    alGet (bulk_attributes_step store entry).selected_attributes j
      = alGet store.selected_attributes j := by
  by_cases h : (alGet store.selected_tables entry.1).isNone = true
  · simp [bulk_attributes_step, h]
  · have h' : (alGet store.selected_tables entry.1).isNone = false := by
      simp only [Bool.not_eq_true] at h
      exact h
    refine ⟨?_, ?_, ?_⟩
    · simp only [bulk_attributes_step, h', Bool.false_eq_true, if_false]
      exact alGet_alSet_ne _ _ _ _ hj
    · simp only [bulk_attributes_step, h', Bool.false_eq_true, if_false]
      cases hm : alGet store.table_load_state entry.1 with
      | some st => simp [hm, alGet_alSet_ne _ _ _ _ hj]
      | none => simp [hm]
    · simp only [bulk_attributes_step, h', Bool.false_eq_true, if_false]
      exact alGet_alSet_ne _ _ _ _ hj

theorem bulk_fold_frame (results : List (String × List AttrData)) (store : Store)
    (j : String) (hj : j ∉ results.map Prod.fst) :
    alGet (on_bulk_attributes_loaded store results).table_attributes j
      = alGet store.table_attributes j ∧
    alGet (on_bulk_attributes_loaded store results).table_load_state j
      = alGet store.table_load_state j ∧
    alGet (on_bulk_attributes_loaded store results).selected_attributes j
      = alGet store.selected_attributes j := by
  induction results generalizing store with
  | nil => simp [on_bulk_attributes_loaded]
  | cons p rest ih =>
    simp only [List.map_cons, List.mem_cons, not_or] at hj
    obtain ⟨hj1, hj2⟩ := hj
    have hstep := bulk_step_frame store p j hj1
    have hrest := ih (bulk_attributes_step store p) hj2
    simp only [on_bulk_attributes_loaded, List.foldl_cons] at *
    exact ⟨hrest.1.trans hstep.1, hrest.2.1.trans hstep.2.1, hrest.2.2.trans hstep.2.2⟩

theorem bulk_step_applies (store : Store) (k : String) (attributes : List AttrData)
    (td : TableData) (st : LoadState)
    (hsel : alGet store.selected_tables k = some td)
    (hst : alGet store.table_load_state k = some st) :
    alGet (bulk_attributes_step store (k, attributes)).table_attributes k
      = some attributes ∧
    alGet (bulk_attributes_step store (k, attributes)).table_load_state k
      = some { st with attrs_loaded := true, attrs_loading := false } ∧
    alGet (bulk_attributes_step store (k, attributes)).selected_attributes k
      = some (reconcile_selection_bulk (get_required_attributes (some td))
          (alGet store.settings.table_attributes k) attributes) := by
  refine ⟨?_, ?_, ?_⟩
  · simp only [bulk_attributes_step, hsel, Option.isNone_some, Bool.false_eq_true, if_false]
    exact alGet_alSet_self _ _ _
  · simp only [bulk_attributes_step, hsel, Option.isNone_some, Bool.false_eq_true, if_false, hst]
    exact alGet_alSet_self _ _ _
  · simp only [bulk_attributes_step, hsel, Option.isNone_some, Bool.false_eq_true, if_false,
      Store.required_attributes]
    exact alGet_alSet_self _ _ _

theorem bulk_fold_applies (results : List (String × List AttrData)) (store : Store)
    (k : String) (attributes : List AttrData) (td : TableData) (st : LoadState)
    (hmem : (k, attributes) ∈ results) (hnd : (results.map Prod.fst).Nodup)
    (hsel : alGet store.selected_tables k = some td)
    (hst : alGet store.table_load_state k = some st) :
    alGet (on_bulk_attributes_loaded store results).table_attributes k
      = some attributes ∧
    alGet (on_bulk_attributes_loaded store results).table_load_state k
      = some { st with attrs_loaded := true, attrs_loading := false } ∧
    alGet (on_bulk_attributes_loaded store results).selected_attributes k
      = some (reconcile_selection_bulk (get_required_attributes (some td))
          (alGet store.settings.table_attributes k) attributes) := by
  induction results generalizing store with
  | nil => cases hmem
  | cons p rest ih =>
    obtain ⟨j, w⟩ := p
    simp only [List.map_cons, List.nodup_cons] at hnd
    obtain ⟨hnd1, hnd2⟩ := hnd
    rcases List.mem_cons.mp hmem with hhead | hrest
    · obtain ⟨hk, hw⟩ := Prod.mk.injEq .. ▸ hhead
      subst hk
      subst hw
      have happ := bulk_step_applies store k attributes td st hsel hst
      have hframe := bulk_fold_frame rest (bulk_attributes_step store (k, attributes)) k hnd1
      simp only [on_bulk_attributes_loaded, List.foldl_cons] at *
      exact ⟨hframe.1.trans happ.1, hframe.2.1.trans happ.2.1, hframe.2.2.trans happ.2.2⟩
    · have hkmem : k ∈ rest.map Prod.fst := by
        exact List.mem_map_of_mem Prod.fst hrest
      have hjk : k ≠ j := by
        intro he
        exact hnd1 (he ▸ hkmem)
      have hsel1 : alGet (bulk_attributes_step store (j, w)).selected_tables k = some td := by
        rw [bulk_step_selected_tables]
        exact hsel
      have hst1 : alGet (bulk_attributes_step store (j, w)).table_load_state k = some st := by
        rw [(bulk_step_frame store (j, w) k hjk).2.1]
        exact hst
      have hset1 : (bulk_attributes_step store (j, w)).settings = store.settings :=
        bulk_step_settings store (j, w)
      have := ih (bulk_attributes_step store (j, w)) hrest hnd2 hsel1 hst1
      rw [hset1] at this
      simpa [on_bulk_attributes_loaded, List.foldl_cons] using this

theorem do_parallel_load_fst (tasks : List (String × Except String (List AttrData))) :
    (do_parallel_load tasks).map Prod.fst = tasks.map Prod.fst := by
  induction tasks with
  | nil => rfl
  | cons t rest ih => simp [do_parallel_load]

theorem alGet_of_mem_nodup {α : Type} {l : List (String × α)} {k : String} {v : α}
    (hmem : (k, v) ∈ l) (hnd : (l.map Prod.fst).Nodup) : alGet l k = some v := by
  induction l with
  | nil => cases hmem
  | cons p rest ih =>
    obtain ⟨j, w⟩ := p
    simp only [List.map_cons, List.nodup_cons] at hnd
    obtain ⟨hnd1, hnd2⟩ := hnd
    rcases List.mem_cons.mp hmem with hhead | hrest
    · obtain ⟨hk, hw⟩ := Prod.mk.injEq .. ▸ hhead
      subst hk
      subst hw
      simp [alGet]
    · have hkmem : k ∈ rest.map Prod.fst := List.mem_map_of_mem Prod.fst hrest
      have hjk : j ≠ k := by
        intro he
        exact hnd1 (he ▸ hkmem)
      simp only [alGet, hjk, if_false]
      exact ih hrest hnd2

/-- C3 counterexample: in a batch where the account task throws and the
contact task succeeds, the account key does not end in the Failed state of
the spec's load machine — it is marked Loaded with an empty attribute
collection, exactly like a successful fetch of nothing. -/
theorem bulk_failure_not_failed_counterexample :
    ((alGet (on_bulk_attributes_loaded ex_store_two
        (do_parallel_load ex_tasks)).table_load_state "account").map
      attrs_spec_state = some .loaded) ∧
    ((alGet (on_bulk_attributes_loaded ex_store_two
        (do_parallel_load ex_tasks)).table_load_state "account").map
      attrs_spec_state ≠ some .failed) ∧
    (alGet (on_bulk_attributes_loaded ex_store_two
        (do_parallel_load ex_tasks)).table_attributes "account" = some []) ∧
    ((alGet (on_bulk_attributes_loaded ex_store_two
        (do_parallel_load ex_tasks)).table_load_state "contact").map
      attrs_spec_state = some .loaded) := by
  decide

/-- C3 (amended): the batch loader turns every per-key task outcome into a
per-key result without raising — a throwing task is recorded as an empty
attribute collection for its own key only — and applying the batch marks each
selected key's attributes as loaded (not failed: the code has no failed
state) with exactly its own task's result, independent of every other key's
outcome. -/
theorem bulk_fetch_isolation (tasks : List (String × Except String (List AttrData)))
    (store : Store) (k : String) (r : Except String (List AttrData))
    (td : TableData) (st : LoadState)
    (hmem : (k, r) ∈ tasks) (hnd : (tasks.map Prod.fst).Nodup)
    (hsel : alGet store.selected_tables k = some td)
    (hst : alGet store.table_load_state k = some st) :
    alGet (do_parallel_load tasks) k = some (attrs_result_of r) ∧
    alGet (on_bulk_attributes_loaded store (do_parallel_load tasks)).table_attributes k
      = some (attrs_result_of r) ∧
    alGet (on_bulk_attributes_loaded store (do_parallel_load tasks)).table_load_state k
      = some { st with attrs_loaded := true, attrs_loading := false } ∧
    alGet (on_bulk_attributes_loaded store (do_parallel_load tasks)).selected_attributes k
      = some (reconcile_selection_bulk (get_required_attributes (some td))
          (alGet store.settings.table_attributes k) (attrs_result_of r)) := by
  have hmem' : (k, attrs_result_of r) ∈ do_parallel_load tasks :=
    List.mem_map_of_mem (fun t => (t.1, attrs_result_of t.2)) hmem
  have hnd' : ((do_parallel_load tasks).map Prod.fst).Nodup := by
    rw [do_parallel_load_fst]
    exact hnd
  have hfold := bulk_fold_applies (do_parallel_load tasks) store k (attrs_result_of r)
    td st hmem' hnd' hsel hst
  exact ⟨alGet_of_mem_nodup hmem' hnd', hfold.1, hfold.2.1, hfold.2.2⟩

theorem bulk_fetch_isolation_witness :
    alGet (on_bulk_attributes_loaded ex_store_two
        (do_parallel_load ex_tasks)).table_attributes "contact"
      = some [ex_attr_contactid] :=
  (bulk_fetch_isolation ex_tasks ex_store_two "contact" (.ok [ex_attr_contactid])
      ex_table_contact ex_loading_state
      (by simp [ex_tasks]) (by decide) (by decide) (by decide)).2.1

end DataverseToPowerBI
